import Mathlib

/-!
Shallow embedding of the `checkurls` URL-redirect inspector (Go).

The repository has two variants of the same program (`main.go` and an
unnamed variant); both consist of a producer that expands hostnames into
candidate URLs, a pool of check workers probing each candidate with a
`http.Client` whose `CheckRedirect` hook is one of the redirect policies,
and a writer rendering each `Site` record.

The embedding models the parts of Go's `net/http`/`net/url` machinery the
program relies on at the granularity the program observes it:
* `url.URL` is modelled by its scheme, host, path and query components;
  a parsed `Location` header value is a `URLRef` whose scheme/host may be
  absent, and `Response.Location()`'s resolution (`url.URL.ResolveReference`)
  is `resolveReference` (dot-segment normalisation is not modelled; no
  claim depends on it).
* the client's redirect loop (`http.Client.do`) is `clientStep`, a
  fuel-indexed recursion: `none` models a probe that has not terminated
  within the given fuel (with a custom `CheckRedirect` Go imposes no hop
  limit).  Statuses 301/302/303 redirect unconditionally (a missing
  Location header is the stdlib's "response missing Location header"
  error), 307/308 redirect only when a Location header is present, all
  other statuses end the chain normally — as in `redirectBehavior` /
  `Client.do` of `net/http`.
* every error returned by `Client.Get` is a `*url.Error`; the wrapped
  cause is a `GoError`.  The sentinel `errDone` is the distinguished
  constructor `GoError.goErrDone`; a transport error carrying the very
  same message text is still a different value, mirroring Go's pointer
  identity of `errors.New` values.
-/

namespace CheckURLs

/-- Component model of Go's `url.URL` as the program observes it:
scheme, host, path and (raw) query. -/
structure URL where
  scheme : String
  host : String
  path : String
  query : String
deriving DecidableEq, Repr

/-- Parsed form of a `Location` header value: a URL reference whose
scheme and host may be absent (relative reference). -/
structure URLRef where
  scheme : Option String
  host : Option String
  path : String
  query : Option String
deriving DecidableEq, Repr

/-- Rendering of `url.URL.String()` for the modelled components: the query
is appended after `?` only when non-empty, as `url.URL.String` does for
`RawQuery`. -/
def URL.toString (u : URL) : String :=
  let base := u.scheme ++ "://" ++ u.host ++ u.path
  if u.query = "" then base else base ++ "?" ++ u.query

/-- Drop of the longest suffix of characters satisfying `p`, stated over
the character list so that it evaluates inside the kernel. -/
def strDropRightWhile (p : Char → Bool) (s : String) : String :=
  String.mk ((s.data.reverse.dropWhile p).reverse)

/-- Drop of the longest matching left run of characters satisfying `p`. -/
def strDropWhile (p : Char → Bool) (s : String) : String :=
  String.mk (s.data.dropWhile p)

/-- Whether `s` starts with `pre` (`strings.HasPrefix`), stated over the
character lists so that it evaluates inside the kernel. -/
def strStartsWith (s pre : String) : Bool :=
  decide (s.data.take pre.data.length = pre.data)

/-- Merge of a relative reference path with the base path, as in
RFC 3986 §5.3 / `net/url.resolvePath`: everything after the last `/` of
the base is replaced by the reference path (dot segments not modelled). -/
def mergePaths (basePath refPath : String) : String :=
  let dir := strDropRightWhile (fun c => c ≠ '/') basePath
  (if strStartsWith dir "/" then dir else "/" ++ dir) ++ refPath

/-- Model of `url.URL.ResolveReference` on the modelled components: an
absolute reference replaces everything; a network-path reference keeps the
base scheme; an absolute-path reference keeps scheme and host; an empty
path keeps the base path (and base query unless the reference has one);
a relative path is merged with the base path's directory. -/
def resolveReference (base : URL) (ref : URLRef) : URL :=
  match ref.scheme with
  | some s =>
    { scheme := s, host := ref.host.getD "", path := ref.path,
      query := ref.query.getD "" }
  | none =>
    match ref.host with
    | some h =>
      { scheme := base.scheme, host := h, path := ref.path,
        query := ref.query.getD "" }
    | none =>
      if ref.path = "" then
        { scheme := base.scheme, host := base.host, path := base.path,
          query := match ref.query with | some q => q | none => base.query }
      else if strStartsWith ref.path "/" then
        { scheme := base.scheme, host := base.host, path := ref.path,
          query := ref.query.getD "" }
      else
        { scheme := base.scheme, host := base.host,
          path := mergePaths base.path ref.path,
          query := ref.query.getD "" }

/-- Model of `http.Request`: the program only ever reads `req.URL`. -/
structure Request where
  url : URL
deriving DecidableEq, Repr

/-- Model of `http.Response` as the program observes it: the request that
produced it (`resp.Request`), its status code, and its parsed `Location`
header (`none` when the header is absent). -/
structure HttpResponse where
  request : Request
  statusCode : Nat
  location : Option URLRef
deriving DecidableEq, Repr

/-- Model of `http.Response.Location()`: the `Location` header, when
present, resolved relative to the response's request URL; `ErrNoLocation`
(absence) is `none`. -/
def HttpResponse.locationURL (r : HttpResponse) : Option URL :=
  r.location.map (resolveReference r.request.url)

/-- Model of Go error values as the program distinguishes them.  `errDone`
(`errors.New("not following any more redirects")`) is compared by identity
in the source, so it is its own constructor; any other error is
`transportErr` with its message.  A `transportErr` whose message equals
`errDone`'s text is still a different value, as in Go. -/
inductive GoError where
  | goErrDone
  | transportErr (msg : String)
deriving DecidableEq, Repr

/-- Model of `*url.Error`, the wrapper `http.Client.Get` puts around every
failure; `inner` is the wrapped cause (`e.Err`). -/
inductive ClientError where
  | urlError (inner : GoError)
deriving DecidableEq, Repr

/-- The `Redirector` / `RedirectBehavior` function type: given the
upcoming request and the chain of requests already made, `none` means
continue (Go `nil`) and a `some` error means stop. -/
abbrev Redirector := Request → List Request → Option GoError

/-- FollowAllRedirects: follows all redirects, unconditionally. -/
def FollowAllRedirects : Redirector := fun _ _ => none

/-- StopOnFirstRedirect: stops at the first redirect it encounters. -/
def StopOnFirstRedirect : Redirector := fun _ _ => some GoError.goErrDone

/-- StopOnRedirectToDifferentDomain as written in the source, with the
partiality of `via[len(via)-1]` made explicit: the outer `Option` is
`none` exactly when the index is out of bounds (the Go code would panic,
i.e. on an empty `via`). -/
def StopOnRedirectToDifferentDomainGo (req : Request) (via : List Request) :
    Option (Option GoError) :=
  match via.getLast? with
  | none => none
  | some prev =>
    some (if req.url.host ≠ prev.url.host then some GoError.goErrDone else none)

/-- StopOnRedirectToDifferentDomain as plugged into the client.  The
client invokes `CheckRedirect` only with a non-empty `via`, where this
coincides with the Go code (see `stopOnDomainChange_total`). -/
def StopOnRedirectToDifferentDomain : Redirector := fun req via =>
  (StopOnRedirectToDifferentDomainGo req via).getD none

/-- Loop body of StopOnCyclicRedirect: scan `via` in order, returning
`errDone` at the first previous request whose URL equals the upcoming
request's URL (full `url.URL` value equality, `*prev.URL == *req.URL`). -/
def StopOnCyclicRedirectLoop (req : Request) : List Request → Option GoError
  | [] => none
  | prev :: rest =>
    if prev.url = req.url then some GoError.goErrDone
    else StopOnCyclicRedirectLoop req rest

/-- StopOnCyclicRedirect: stops only if redirects get into a loop. -/
def StopOnCyclicRedirect : Redirector := fun req via =>
  StopOnCyclicRedirectLoop req via

/-- The network environment of one probe: what the server answers for each
URL — a status code and optional parsed `Location` header — or a transport
failure with its message. -/
abbrev Server := URL → Except String (Nat × Option URLRef)

/-- Status codes Go's client treats as redirects (`redirectBehavior`). -/
def redirectStatuses : List Nat := [301, 302, 303, 307, 308]

/-- Whether `net/http` follows this response: 301/302/303 always (a
missing Location is then an error later in the loop), 307/308 only when a
Location header is present. -/
def shouldRedirect (status : Nat) (loc : Option URLRef) : Bool :=
  match status with
  | 301 | 302 | 303 => true
  | 307 | 308 => loc.isSome
  | _ => false

/-- Outcome of `http.Client.Get` as `testURL` observes it: a clean
response, the previous response plus the `CheckRedirect` error wrapped in
a `*url.Error`, or a `*url.Error` with no response. -/
inductive GetOutcome where
  | success (resp : HttpResponse)
  | haltedByPolicy (resp : HttpResponse) (e : GoError)
  | transportFailure (e : GoError)
deriving DecidableEq, Repr

/-- The redirect loop of `http.Client.do`, fuel-indexed; `via` is the
`reqs` slice of requests already issued (the response in hand answers the
last of them).  `none` means the loop did not finish within `fuel` steps
(with a custom `CheckRedirect`, Go's loop has no intrinsic hop limit). -/
def clientStep (server : Server) (check : Redirector) :
    Nat → Request → List Request → Option GetOutcome
  | 0, _, _ => none
  | fuel + 1, req, via =>
    match server req.url with
    | Except.error msg => some (GetOutcome.transportFailure (GoError.transportErr msg))
    | Except.ok (status, loc) =>
      let resp : HttpResponse := ⟨req, status, loc⟩
      if shouldRedirect status loc then
        match loc with
        | none =>
          some (GetOutcome.transportFailure
            (GoError.transportErr (Nat.repr status ++ " response missing Location header")))
        | some ref =>
          let nextReq : Request := ⟨resolveReference req.url ref⟩
          let via' := via ++ [req]
          match check nextReq via' with
          | some e => some (GetOutcome.haltedByPolicy resp e)
          | none => clientStep server check fuel nextReq via'
      else some (GetOutcome.success resp)

/-- `http.Client.Get` on a candidate URL: run the redirect loop from the
original request with an empty chain. -/
def clientGet (server : Server) (check : Redirector) (fuel : Nat) (u : URL) :
    Option GetOutcome :=
  clientStep server check fuel ⟨u⟩ []

/-- Site contains the request URL, HTTP status code and response URL. -/
structure Site where
  RequestURL : URL
  StatusCode : Nat
  ResponseURL : Option URL
deriving DecidableEq, Repr

/-- Construction of the `Site` record in `testURL` from the response in
hand: `resp.Request.URL`, `resp.StatusCode`, and `resp.Location()` when
the header is present. -/
def mkSite (resp : HttpResponse) : Site :=
  { RequestURL := resp.request.url
    StatusCode := resp.statusCode
    ResponseURL := resp.locationURL }

/-- `testURL` (`testUrl` in `main.go`): issue the GET; on failure, an
error whose wrapped cause is identical to `errDone` is not an error (use
the response in hand), any other failure is returned as-is; then build the
`Site`.  `none` propagates a probe that did not terminate in `fuel`. -/
def testURL (server : Server) (check : Redirector) (fuel : Nat) (u : URL) :
    Option (Except ClientError Site) :=
  match clientGet server check fuel u with
  | none => none
  | some (GetOutcome.transportFailure e) =>
    some (Except.error (ClientError.urlError e))
  | some (GetOutcome.haltedByPolicy resp e) =>
    if e = GoError.goErrDone then some (Except.ok (mkSite resp))
    else some (Except.error (ClientError.urlError e))
  | some (GetOutcome.success resp) => some (Except.ok (mkSite resp))

/-- Rendering of an optional URL, the `if s.ResponseURL != nil` tail of
`Site.String`. -/
def optURLString : Option URL → String
  | none => ""
  | some u => u.toString

/-- `Site.String` of the unnamed variant: full request URL
(`s.RequestURL.String()`), status code and optional response URL,
comma-separated. -/
def Site.render (s : Site) : String :=
  s.RequestURL.toString ++ "," ++ Nat.repr s.StatusCode ++ "," ++
    optURLString s.ResponseURL

/-- `Site.String` of the `main.go` variant: it formats `s.RequestUrl.Host`
— only the host component — as the first field. -/
def Site.renderHostVariant (s : Site) : String :=
  s.RequestURL.host ++ "," ++ Nat.repr s.StatusCode ++ "," ++
    optURLString s.ResponseURL

/-- The protocol schemes every hostname is expanded across. -/
def protocols : List String := ["http", "https"]

/-- `formatURL`: scheme, `://`, the (already trimmed) hostname, `/`. -/
def formatURL (protocol : String) (site : String) : String :=
  protocol ++ "://" ++ site ++ "/"

/-- The cutset of `strings.Trim(site, " \t\r\n")`. -/
def goTrimCut (c : Char) : Bool :=
  c = ' ' || c = '\t' || c = '\r' || c = '\n'

/-- `strings.Trim(site, " \t\r\n")`: drop cutset characters from both
ends. -/
def goTrim (s : String) : String :=
  strDropRightWhile goTrimCut (strDropWhile goTrimCut s)

/-- Loop body of the unnamed variant's `readWorker` for one value returned
by `ReadString('\n')`: only a non-empty read (`len(site) > 0`) is trimmed
and expanded into one candidate URL per protocol. -/
def processLine (site : String) : List String :=
  if site.length > 0 then protocols.map (fun prot => formatURL prot (goTrim site))
  else []

/-- Regrouping of the pieces of `splitOn "\n"` into the values
`bufio.Reader.ReadString('\n')` returns: every piece except the last has
its delimiter re-attached; the last piece (possibly `""`) is the read that
comes with the `io.EOF` error. -/
def readsOfAux : List String → List String
  | [] => []
  | [last] => [last]
  | piece :: rest => (piece ++ "\n") :: readsOfAux rest

/-- Split of a character stream at each newline; the delimiter is dropped
and an empty trailing piece marks a terminating newline, matching
`String.splitOn "\n"` but evaluating inside the kernel. -/
def splitNewlines : List Char → List (List Char)
  | [] => [[]]
  | c :: rest =>
    let r := splitNewlines rest
    if c = '\n' then [] :: r
    else
      match r with
      | [] => [[c]]
      | piece :: pieces => (c :: piece) :: pieces

/-- The sequence of values `ReadString('\n')` yields on the given input
before the loop breaks on the first error. -/
def readsOf (s : String) : List String :=
  readsOfAux ((splitNewlines s.data).map (fun l => String.mk l))

/-- The unnamed variant's `readWorker` on a whole input: the work items
sent, in order. -/
def readWorker (input : String) : List String :=
  (readsOf input).flatMap processLine

/-- `strings.TrimRight(site, "\n")` of the `main.go` variant: drop only
trailing newline characters. -/
def trimRightNewline (s : String) : String :=
  strDropRightWhile (fun c => c = '\n') s

/-- Loop body of the `main.go` variant's `readWorker` for one value
returned by `ReadString('\n')`: every read — with no emptiness check —
is right-trimmed of newlines and expanded into one candidate URL per
protocol. -/
def processLineMain (site : String) : List String :=
  protocols.map (fun prot => formatURL prot (trimRightNewline site))

/-- The `main.go` variant's `readWorker` on a whole input (its reader is
`openUrls`, which ignores the file path and serves a fixed string; the
loop itself is modelled over an arbitrary input). -/
def readWorkerMain (input : String) : List String :=
  (readsOf input).flatMap processLineMain

/-- `checkWorker`'s loop over the candidates a worker receives: each
probe's `Site` goes to the result channel, each probe error to the
diagnostic stream, and the loop continues either way; `none` models a
probe that never returns. -/
def checkWorker (server : Server) (check : Redirector) (fuel : Nat) :
    List URL → Option (List Site × List ClientError)
  | [] => some ([], [])
  | site :: rest =>
    match testURL server check fuel site with
    | none => none
    | some (Except.ok r) =>
      (checkWorker server check fuel rest).map (fun p => (r :: p.1, p.2))
    | some (Except.error e) =>
      (checkWorker server check fuel rest).map (fun p => (p.1, e :: p.2))

/-! Concrete fixtures used by counterexamples and witnesses. -/

/-- Candidate URL `http://a.example/`. -/
def urlA : URL := ⟨"http", "a.example", "/", ""⟩

/-- URL `http://b.example/`. -/
def urlB : URL := ⟨"http", "b.example", "/", ""⟩

/-- An absolute reference to `http://b.example/`. -/
def refToB : URLRef := ⟨some "http", some "b.example", "/", none⟩

/-- A server where `a.example` answers `301` with Location
`http://b.example/` and `b.example` answers `200`; everything else is a
transport failure. -/
def serverAB : Server := fun u =>
  if u = urlA then Except.ok (301, some refToB)
  else if u = urlB then Except.ok (200, none)
  else Except.error "no route to host"

/-- A server where `a.example` answers `201 Created` with a Location
header — a non-redirect status carrying a redirect-target header. -/
def server201 : Server := fun u =>
  if u = urlA then Except.ok (201, some refToB)
  else Except.error "no route to host"

/-- A server where `a.example` answers `301` with the relative reference
`next` (no scheme, no host). -/
def serverRel : Server := fun u =>
  if u = urlA then Except.ok (301, some ⟨none, none, "next", none⟩)
  else Except.error "no route to host"

/-! Helper lemmas shared by the claim theorems. -/

/-- A successful probe's `Site` is built by `mkSite` from the final
response of the redirect loop — either a clean response or the response
the loop held when the sentinel halted it. -/
theorem testURL_ok_resp (server : Server) (check : Redirector) (fuel : Nat)
    (u : URL) (site : Site)
    (h : testURL server check fuel u = some (Except.ok site)) :
    ∃ resp, site = mkSite resp ∧
      (clientGet server check fuel u = some (GetOutcome.success resp) ∨
       clientGet server check fuel u =
         some (GetOutcome.haltedByPolicy resp GoError.goErrDone)) := by
  unfold testURL at h
  cases hcg : clientGet server check fuel u with
  | none => rw [hcg] at h; simp at h
  | some outcome =>
    rw [hcg] at h
    cases outcome with
    | success resp =>
      simp at h
      exact ⟨resp, h.symm, Or.inl rfl⟩
    | haltedByPolicy resp e =>
      by_cases he : e = GoError.goErrDone
      · subst he
        simp at h
        exact ⟨resp, h.symm, Or.inr rfl⟩
      · simp [he] at h
    | transportFailure e => simp at h

/-- The cyclic-redirect scan yields either `nil` or the sentinel, nothing
else. -/
theorem stopOnCycleLoop_cases (req : Request) (via : List Request) :
    StopOnCyclicRedirectLoop req via = none ∨
    StopOnCyclicRedirectLoop req via = some GoError.goErrDone := by
  induction via with
  | nil => exact Or.inl rfl
  | cons prev rest ih =>
    by_cases h : prev.url = req.url
    · exact Or.inr (by simp [StopOnCyclicRedirectLoop, h])
    · simpa [StopOnCyclicRedirectLoop, h] using ih

/-- The cyclic-redirect scan fires exactly on a repeated URL. -/
theorem stopOnCycleLoop_mem (req : Request) (via : List Request) :
    StopOnCyclicRedirectLoop req via = some GoError.goErrDone ↔
      req.url ∈ via.map (fun r => r.url) := by
  induction via with
  | nil => simp [StopOnCyclicRedirectLoop]
  | cons prev rest ih =>
    by_cases h : prev.url = req.url
    · simp [StopOnCyclicRedirectLoop, h]
    · have h' : req.url ≠ prev.url := fun hh => h hh.symm
      simp [StopOnCyclicRedirectLoop, h, h', ih]

/-- C5: for every upcoming request and every chain of prior requests,
StopOnCycle stops (returns the sentinel) iff the upcoming request's URL is
exactly equal — full URL equality — to some URL already in the chain, and
continues (returns nil) iff the URL is novel, for chains of any length. -/
theorem stopOnCycle_spec (req : Request) (via : List Request) :
    (StopOnCyclicRedirect req via = some GoError.goErrDone ↔
       req.url ∈ via.map (fun r => r.url)) ∧
    (StopOnCyclicRedirect req via = none ↔
       req.url ∉ via.map (fun r => r.url)) := by
  have hmem := stopOnCycleLoop_mem req via
  have hcases := stopOnCycleLoop_cases req via
  refine ⟨hmem, ?_, ?_⟩
  · intro hnone hin
    have := hmem.mpr hin
    rw [show StopOnCyclicRedirect req via = StopOnCyclicRedirectLoop req via from rfl]
      at hnone
    rw [this] at hnone
    exact Option.noConfusion hnone
  · intro hnin
    rcases hcases with hc | hc
    · exact hc
    · exact absurd (hmem.mp hc) hnin

/-- Chain of 50 pairwise-distinct prior requests for the C5 witness. -/
def via50 : List Request :=
  (List.range 50).map (fun i => ⟨⟨"http", "host" ++ Nat.repr i, "/", ""⟩⟩)

/-- Witness for C5: on a 50-hop chain with no repeats a novel URL yields
Continue, and a URL already in the chain yields Stop. -/
theorem stopOnCycle_spec_witness :
    StopOnCyclicRedirect ⟨⟨"http", "host50", "/", ""⟩⟩ via50 = none ∧
    StopOnCyclicRedirect ⟨⟨"http", "host7", "/", ""⟩⟩ via50 =
      some GoError.goErrDone := by
  constructor
  · exact (stopOnCycle_spec ⟨⟨"http", "host50", "/", ""⟩⟩ via50).2.mpr (by decide)
  · exact (stopOnCycle_spec ⟨⟨"http", "host7", "/", ""⟩⟩ via50).1.mpr (by decide)

/-- C6: for every upcoming request and non-empty chain, StopOnDomainChange
stops iff the host of the upcoming request's URL differs from the host of
the most recent prior request's URL, and continues otherwise. -/
theorem stopOnDomainChange_spec (req : Request) (via : List Request)
    (h : via ≠ []) :
    StopOnRedirectToDifferentDomainGo req via =
      some (if req.url.host ≠ (via.getLast h).url.host
            then some GoError.goErrDone else none) := by
  unfold StopOnRedirectToDifferentDomainGo
  rw [List.getLast?_eq_getLast via h]

/-- Witness for C6: a chain ending at `a.example` with the next hop at
`b.example` yields Stop; staying on `a.example` yields Continue. -/
theorem stopOnDomainChange_spec_witness :
    StopOnRedirectToDifferentDomainGo ⟨urlB⟩ [⟨urlA⟩] =
      some (some GoError.goErrDone) ∧
    StopOnRedirectToDifferentDomainGo ⟨urlA⟩ [⟨urlA⟩] = some none := by
  constructor
  · rw [stopOnDomainChange_spec ⟨urlB⟩ [⟨urlA⟩] (by simp)]
    decide
  · rw [stopOnDomainChange_spec ⟨urlA⟩ [⟨urlA⟩] (by simp)]
    decide

/-- C9: the StopOnDomainChange decision function is total whenever the
chain is non-empty (the `via[len(via)-1]` access is in bounds), and the
client's redirect loop only ever consults a policy at non-empty chains, so
the empty-chain (panic) branch is unreachable: two policies agreeing on
all non-empty chains induce identical loop behaviour. -/
theorem stopOnDomainChange_total :
    (∀ (req : Request) (via : List Request), via ≠ [] →
        ∃ d, StopOnRedirectToDifferentDomainGo req via = some d) ∧
    (∀ (server : Server) (check1 check2 : Redirector),
        (∀ r v, v ≠ [] → check1 r v = check2 r v) →
        ∀ (fuel : Nat) (req : Request) (via : List Request),
          clientStep server check1 fuel req via =
            clientStep server check2 fuel req via) := by
  constructor
  · intro req via h
    refine ⟨if req.url.host ≠ (via.getLast h).url.host
            then some GoError.goErrDone else none, ?_⟩
    exact stopOnDomainChange_spec req via h
  · intro server check1 check2 hagree fuel
    induction fuel with
    | zero => intro req via; rfl
    | succ n ih =>
      intro req via
      unfold clientStep
      cases server req.url with
      | error msg => rfl
      | ok p =>
        obtain ⟨status, loc⟩ := p
        by_cases hr : shouldRedirect status loc = true
        · cases loc with
          | none => simp [hr]
          | some ref =>
            simp only [hr, if_true]
            rw [hagree ⟨resolveReference req.url ref⟩ (via ++ [req]) (by simp)]
            cases check2 ⟨resolveReference req.url ref⟩ (via ++ [req]) with
            | some e => rfl
            | none => exact ih ⟨resolveReference req.url ref⟩ (via ++ [req])
        · simp [hr]

/-- Witness for C9: both parts applied at a singleton chain — the access
is in bounds, and the domain-change policy as plugged in (defaulting the
unreachable panic branch) behaves identically to the Go function. -/
theorem stopOnDomainChange_total_witness :
    (∃ d, StopOnRedirectToDifferentDomainGo ⟨urlB⟩ [⟨urlA⟩] = some d) ∧
    clientStep serverAB StopOnRedirectToDifferentDomain 5 ⟨urlA⟩ [] =
      clientStep serverAB
        (fun r v => (StopOnRedirectToDifferentDomainGo r v).getD none) 5
        ⟨urlA⟩ [] := by
  constructor
  · exact stopOnDomainChange_total.1 ⟨urlB⟩ [⟨urlA⟩] (by simp)
  · exact stopOnDomainChange_total.2 serverAB _ _ (fun r v _ => rfl) 5 ⟨urlA⟩ []

/-- Resolving a reference that has neither scheme nor host keeps the
base's scheme and host: the result is absolute relative to the base. -/
theorem resolveReference_relative (base : URL) (ref : URLRef)
    (hs : ref.scheme = none) (hh : ref.host = none) :
    (resolveReference base ref).scheme = base.scheme ∧
    (resolveReference base ref).host = base.host := by
  obtain ⟨rs, rh, rp, rq⟩ := ref
  simp only at hs hh
  subst hs; subst hh
  unfold resolveReference
  by_cases h1 : rp = ""
  · simp [h1]
  · by_cases h2 : strStartsWith rp "/" = true
    · simp [h1, h2]
    · simp [h1, h2]

/-- C1 (amended): the RequestURL of a successful probe is
`resp.Request.URL` of the final response — the last request of the chain
that received a response, not in general the original candidate; under
StopOnFirstRedirect no hop past the original is ever issued, so there it
does equal the original candidate URL. -/
theorem requestURL_final_hop :
    (∀ (server : Server) (check : Redirector) (fuel : Nat) (u : URL)
       (site : Site),
        testURL server check fuel u = some (Except.ok site) →
        ∃ resp, site = mkSite resp ∧ site.RequestURL = resp.request.url ∧
          (clientGet server check fuel u = some (GetOutcome.success resp) ∨
           clientGet server check fuel u =
             some (GetOutcome.haltedByPolicy resp GoError.goErrDone))) ∧
    (∀ (server : Server) (fuel : Nat) (u : URL) (site : Site),
        testURL server StopOnFirstRedirect fuel u = some (Except.ok site) →
        site.RequestURL = u) := by
  constructor
  · intro server check fuel u site h
    obtain ⟨resp, hsite, hor⟩ := testURL_ok_resp server check fuel u site h
    exact ⟨resp, hsite, by rw [hsite]; rfl, hor⟩
  · intro server fuel u site h
    cases fuel with
    | zero => simp [testURL, clientGet, clientStep] at h
    | succ n =>
      unfold testURL clientGet clientStep at h
      cases hs : server u with
      | error msg => rw [show server (⟨u⟩ : Request).url = server u from rfl, hs] at h; simp at h
      | ok p =>
        obtain ⟨status, loc⟩ := p
        rw [show server (⟨u⟩ : Request).url = server u from rfl, hs] at h
        by_cases hr : shouldRedirect status loc = true
        · cases loc with
          | none => simp [hr] at h
          | some ref =>
            simp [hr, StopOnFirstRedirect] at h
            rw [← h]
            rfl
        · simp [hr] at h
          rw [← h]
          rfl

/-- Counterexample to C1: with FollowAllRedirects against a server
redirecting `http://a.example/` to `http://b.example/` (which answers
200), the probe succeeds and RequestURL is the final hop
`http://b.example/`, not the original candidate `http://a.example/`. -/
theorem requestURL_not_original_counterexample :
    testURL serverAB FollowAllRedirects 5 urlA =
      some (Except.ok ⟨urlB, 200, none⟩) ∧ urlB ≠ urlA := by
  constructor
  · rfl
  · decide

/-- Witness for C1 (amended): under StopOnFirstRedirect the same server
yields a probe whose RequestURL is the original candidate. -/
theorem requestURL_final_hop_witness :
    ∃ site, testURL serverAB StopOnFirstRedirect 5 urlA =
      some (Except.ok site) ∧ site.RequestURL = urlA := by
  refine ⟨⟨urlA, 301, some urlB⟩, by rfl, ?_⟩
  exact requestURL_final_hop.2 serverAB 5 urlA ⟨urlA, 301, some urlB⟩ (by rfl)

/-- C2: the probe errors exactly when the HTTP call fails with a wrapped
cause that is not (by value identity, never by message text) the
truncation sentinel: a transport failure or a policy error other than the
sentinel propagates as-is, while the sentinel itself yields a normal
`Site` built from the last response received before truncation. -/
theorem testURL_error_classification :
    ∀ (server : Server) (check : Redirector) (fuel : Nat) (u : URL),
      (∀ e, clientGet server check fuel u =
            some (GetOutcome.transportFailure e) →
          testURL server check fuel u =
            some (Except.error (ClientError.urlError e))) ∧
      (∀ resp, clientGet server check fuel u =
            some (GetOutcome.haltedByPolicy resp GoError.goErrDone) →
          testURL server check fuel u = some (Except.ok (mkSite resp))) ∧
      (∀ resp e, e ≠ GoError.goErrDone →
          clientGet server check fuel u =
            some (GetOutcome.haltedByPolicy resp e) →
          testURL server check fuel u =
            some (Except.error (ClientError.urlError e))) ∧
      (∀ resp, clientGet server check fuel u = some (GetOutcome.success resp) →
          testURL server check fuel u = some (Except.ok (mkSite resp))) ∧
      (∀ site, testURL server check fuel u = some (Except.ok site) →
          ∃ resp,
            clientGet server check fuel u = some (GetOutcome.success resp) ∨
            clientGet server check fuel u =
              some (GetOutcome.haltedByPolicy resp GoError.goErrDone)) := by
  intro server check fuel u
  refine ⟨?_, ?_, ?_, ?_, ?_⟩
  · intro e h; simp [testURL, h]
  · intro resp h; simp [testURL, h]
  · intro resp e he h; simp [testURL, h, he]
  · intro resp h; simp [testURL, h]
  · intro site h
    obtain ⟨resp, _, hor⟩ := testURL_ok_resp server check fuel u site h
    exact ⟨resp, hor⟩

/-- Checker that halts the chain with an error whose message equals the
sentinel's text but which is a different value — it must propagate. -/
def sameTextChecker : Redirector := fun _ _ =>
  some (GoError.transportErr "not following any more redirects")

/-- Witness for C2: a halt by an error merely sharing the sentinel's
message text is still an error; string content is never consulted. -/
theorem testURL_error_classification_witness :
    testURL serverAB sameTextChecker 5 urlA =
      some (Except.error (ClientError.urlError
        (GoError.transportErr "not following any more redirects"))) :=
  (testURL_error_classification serverAB sameTextChecker 5 urlA).2.2.1
    ⟨⟨urlA⟩, 301, some refToB⟩
    (GoError.transportErr "not following any more redirects")
    (by decide) (by decide)

/-- C3 (amended): for every successful probe, ResponseURL is present iff
the final response carries a Location header; the status class is not
consulted when the `Site` is built. -/
theorem responseURL_iff_location :
    ∀ (server : Server) (check : Redirector) (fuel : Nat) (u : URL)
      (site : Site),
      testURL server check fuel u = some (Except.ok site) →
      ∃ resp,
        (clientGet server check fuel u = some (GetOutcome.success resp) ∨
         clientGet server check fuel u =
           some (GetOutcome.haltedByPolicy resp GoError.goErrDone)) ∧
        site.ResponseURL = resp.locationURL ∧
        (site.ResponseURL.isSome ↔ resp.location.isSome) := by
  intro server check fuel u site h
  obtain ⟨resp, hsite, hor⟩ := testURL_ok_resp server check fuel u site h
  subst hsite
  refine ⟨resp, hor, rfl, ?_⟩
  simp [mkSite, HttpResponse.locationURL]

/-- Counterexample to C3: a `201 Created` terminal response carrying a
Location header — a status outside the redirect class — still yields a
present ResponseURL. -/
theorem responseURL_statusClass_counterexample :
    testURL server201 FollowAllRedirects 1 urlA =
      some (Except.ok ⟨urlA, 201, some urlB⟩) ∧
    (201 ∈ redirectStatuses → False) ∧
    (Site.mk urlA 201 (some urlB)).ResponseURL.isSome = true := by
  refine ⟨by rfl, by decide, by rfl⟩

/-- Witness for C3 (amended): a halted probe's ResponseURL is present and
agrees with the final response's Location header. -/
theorem responseURL_iff_location_witness :
    ∃ resp,
      (clientGet serverAB StopOnFirstRedirect 5 urlA =
         some (GetOutcome.success resp) ∨
       clientGet serverAB StopOnFirstRedirect 5 urlA =
         some (GetOutcome.haltedByPolicy resp GoError.goErrDone)) ∧
      (Site.mk urlA 301 (some urlB)).ResponseURL = resp.locationURL ∧
      ((Site.mk urlA 301 (some urlB)).ResponseURL.isSome ↔
        resp.location.isSome) :=
  responseURL_iff_location serverAB StopOnFirstRedirect 5 urlA
    (Site.mk urlA 301 (some urlB)) (by rfl)

/-- C10: a present ResponseURL is the final response's Location header
resolved relative to the final request's URL; a reference with neither
scheme nor host yields an absolute URL inheriting the final request's
scheme and host, never the raw header text. -/
theorem responseURL_resolution :
    ∀ (server : Server) (check : Redirector) (fuel : Nat) (u : URL)
      (site : Site) (target : URL),
      testURL server check fuel u = some (Except.ok site) →
      site.ResponseURL = some target →
      ∃ resp ref,
        (clientGet server check fuel u = some (GetOutcome.success resp) ∨
         clientGet server check fuel u =
           some (GetOutcome.haltedByPolicy resp GoError.goErrDone)) ∧
        resp.location = some ref ∧
        target = resolveReference resp.request.url ref ∧
        (ref.scheme = none → ref.host = none →
          target.scheme = resp.request.url.scheme ∧
          target.host = resp.request.url.host) := by
  intro server check fuel u site target h htgt
  obtain ⟨resp, hsite, hor⟩ := testURL_ok_resp server check fuel u site h
  subst hsite
  cases hloc : resp.location with
  | none =>
    rw [show (mkSite resp).ResponseURL = resp.locationURL from rfl,
        HttpResponse.locationURL, hloc] at htgt
    simp at htgt
  | some ref =>
    have hresp : (mkSite resp).ResponseURL =
        some (resolveReference resp.request.url ref) := by
      simp [mkSite, HttpResponse.locationURL, hloc]
    rw [hresp] at htgt
    have htgt' : target = resolveReference resp.request.url ref :=
      (Option.some.injEq _ _ ▸ htgt).symm
    refine ⟨resp, ref, hor, hloc, htgt', ?_⟩
    intro hs hh
    rw [htgt']
    exact resolveReference_relative resp.request.url ref hs hh

/-- Witness for C10: a relative Location `next` on a `301` from
`http://a.example/` resolves to the absolute `http://a.example/next`. -/
theorem responseURL_resolution_witness :
    ∃ resp ref,
      (clientGet serverRel StopOnFirstRedirect 5 urlA =
         some (GetOutcome.success resp) ∨
       clientGet serverRel StopOnFirstRedirect 5 urlA =
         some (GetOutcome.haltedByPolicy resp GoError.goErrDone)) ∧
      resp.location = some ref ∧
      URL.mk "http" "a.example" "/next" "" =
        resolveReference resp.request.url ref ∧
      (ref.scheme = none → ref.host = none →
        (URL.mk "http" "a.example" "/next" "").scheme =
          resp.request.url.scheme ∧
        (URL.mk "http" "a.example" "/next" "").host =
          resp.request.url.host) :=
  responseURL_resolution serverRel StopOnFirstRedirect 5 urlA
    (Site.mk urlA 301 (some (URL.mk "http" "a.example" "/next" "")))
    (URL.mk "http" "a.example" "/next" "") (by rfl) (by rfl)

/-- Sample record for the rendering counterexample. -/
def exSite : Site := ⟨⟨"http", "example.com", "/", ""⟩, 200, none⟩

/-- C4 (amended): the unnamed variant renders the full request URL —
scheme, `://`, host and path — as the first field, then the status code,
then the response URL or the empty string, comma-separated; the `main.go`
variant renders only the host component as the first field. -/
theorem render_field_order (s : Site) (hq : s.RequestURL.query = "") :
    Site.render s =
      s.RequestURL.scheme ++ "://" ++ s.RequestURL.host ++ s.RequestURL.path
        ++ "," ++ Nat.repr s.StatusCode ++ "," ++ optURLString s.ResponseURL ∧
    Site.renderHostVariant s =
      s.RequestURL.host ++ "," ++ Nat.repr s.StatusCode ++ ","
        ++ optURLString s.ResponseURL := by
  constructor
  · simp [Site.render, URL.toString, hq]
  · rfl

/-- Witness for C4 (amended): the two renderings of a concrete record. -/
theorem render_field_order_witness :
    Site.render exSite = "http://example.com/,200," ∧
    Site.renderHostVariant exSite = "example.com,200," := by
  have h := render_field_order exSite rfl
  exact ⟨by rw [h.1]; decide, by rw [h.2]; decide⟩

/-- Counterexample to C4: on the `main.go` variant the rendered record of
a probe of `http://example.com/` opens with `example.com`, the host
component alone, not with the complete candidate URL. -/
theorem render_hostOnly_counterexample :
    Site.renderHostVariant exSite = "example.com,200," ∧
    exSite.RequestURL.toString = "http://example.com/" ∧
    Site.renderHostVariant exSite ≠ Site.render exSite := by
  refine ⟨by decide, by decide, by decide⟩

/-- Counterexample to C7, one half per variant.  Unnamed variant: a
whitespace-only line is non-empty before trimming, so the producer
expands it — the trimmed hostname is empty and the work queue receives
`http:///` and `https:///` instead of nothing.  `main.go` variant: there
is no emptiness check at all, so even the empty final read produced by a
terminating newline is expanded into `http:///` and `https:///`. -/
theorem readWorker_whitespace_counterexample :
    (readWorker " \n" = ["http:///", "https:///"] ∧ goTrim " \n" = "") ∧
    readWorkerMain "host.example\n" =
      ["http://host.example/", "https://host.example/",
       "http:///", "https:///"] := by
  refine ⟨⟨by decide, by decide⟩, by decide⟩

/-- C7 (amended), per variant.  Unnamed variant: the producer checks the
raw read for emptiness before trimming — an empty read (in particular the
final read after a terminating newline) yields no candidates, and every
non-empty read is trimmed of whitespace and line endings and yields
exactly one candidate per protocol scheme, formed as the scheme, `://`,
the trimmed hostname and a trailing `/`, even when the trimmed hostname
is empty.  `main.go` variant: there is no emptiness check and only
trailing newlines are trimmed — every read, the empty final read after a
terminating newline included, yields one candidate per scheme. -/
theorem readWorker_discipline :
    (processLine "" = []) ∧
    (∀ line, line ≠ "" →
      processLine line =
        ["http" ++ "://" ++ goTrim line ++ "/",
         "https" ++ "://" ++ goTrim line ++ "/"]) ∧
    (∀ line, processLineMain line =
        ["http" ++ "://" ++ trimRightNewline line ++ "/",
         "https" ++ "://" ++ trimRightNewline line ++ "/"]) ∧
    readWorker "example.org\n" =
      ["http://example.org/", "https://example.org/"] ∧
    readWorkerMain "example.org\n" =
      ["http://example.org/", "https://example.org/",
       "http:///", "https:///"] := by
  refine ⟨rfl, ?_, fun line => rfl, by decide, by decide⟩
  intro line hline
  have hlen : line.length > 0 := by
    cases line with
    | mk data =>
      cases data with
      | nil => exact absurd rfl hline
      | cons c cs => simp [String.length]
  simp [processLine, hlen, protocols, formatURL]

/-- Witness for C7 (amended): a read still carrying its newline is
trimmed and expanded across both schemes, in both variants. -/
theorem readWorker_discipline_witness :
    processLine "tweakers.net\n" =
      ["http" ++ "://" ++ goTrim "tweakers.net\n" ++ "/",
       "https" ++ "://" ++ goTrim "tweakers.net\n" ++ "/"] ∧
    processLineMain "tweakers.net\n" =
      ["http" ++ "://" ++ trimRightNewline "tweakers.net\n" ++ "/",
       "https" ++ "://" ++ trimRightNewline "tweakers.net\n" ++ "/"] :=
  ⟨readWorker_discipline.2.1 "tweakers.net\n" (by decide),
   readWorker_discipline.2.2.1 "tweakers.net\n"⟩

/-- C8: a worker never stops early: as long as each probe terminates, the
whole queue is processed and every candidate lands in exactly one of the
result list or the diagnostic list — an erroring probe adds a diagnostic
and the loop continues with the next candidate. -/
theorem checkWorker_never_aborts :
    ∀ (server : Server) (check : Redirector) (fuel : Nat) (sites : List URL),
      (∀ u, u ∈ sites → (testURL server check fuel u).isSome = true) →
      ∃ rs es, checkWorker server check fuel sites = some (rs, es) ∧
        rs.length + es.length = sites.length := by
  intro server check fuel sites h
  induction sites with
  | nil => exact ⟨[], [], rfl, rfl⟩
  | cons u rest ih =>
    obtain ⟨rs, es, hw, hlen⟩ := ih (fun v hv => h v (List.mem_cons_of_mem u hv))
    cases ht : testURL server check fuel u with
    | none =>
      have := h u (List.mem_cons_self u rest)
      rw [ht] at this
      simp at this
    | some res =>
      cases res with
      | ok r =>
        refine ⟨r :: rs, es, ?_, ?_⟩
        · simp [checkWorker, ht, hw]
        · simp only [List.length_cons]
          omega
      | error e =>
        refine ⟨rs, e :: es, ?_, ?_⟩
        · simp [checkWorker, ht, hw]
        · simp only [List.length_cons]
          omega

/-- Witness for C8: a queue whose first candidate fails (no route) and
whose second succeeds is processed to the end — one diagnostic, one
result. -/
theorem checkWorker_never_aborts_witness :
    ∃ rs es,
      checkWorker serverAB StopOnFirstRedirect 5
        [⟨"http", "nowhere.example", "/", ""⟩, urlA] = some (rs, es) ∧
      rs.length + es.length = 2 :=
  checkWorker_never_aborts serverAB StopOnFirstRedirect 5
    [⟨"http", "nowhere.example", "/", ""⟩, urlA] (by decide)

end CheckURLs
